import Mathlib

/-!
Shallow embedding of the debt-reconciliation program (`true_accord.go`).

Modelling conventions:
* `decimal.Decimal` (shopspring, arbitrary-precision exact decimals) is
  modelled as `ℚ`; `Decimal.Round(2)` rounds half away from zero to two
  decimal places and is modelled by `round2` below.
* `time.Time` values carry only calendar dates here (they are produced by
  `time.Parse` of `YYYY-MM-DD` strings, always midnight UTC); a date is
  modelled as `ℤ`, a day number counted from the zero `time.Time`
  (January 1, year 1).  `t.IsZero()` is `t = 0`, and adding the duration
  returned for a cadence adds `7` or `14` whole days.
* Go `string` results that are either `""` or a formatted date are modelled
  as `Option ℤ` (`none` for `""`; formatting a date is injective, so the
  day number stands for the formatted text).
* The unbounded `for` loop of `generatePaymentSchedule` is modelled with
  explicit fuel returning `Option`: `none` means the loop has not finished
  within the given bound (so `none` for every bound is non-termination).
* Go maps keyed by `int` are modelled as lists looked up by the key field;
  the map iteration in `normalizeData` touches each debt exactly once and
  the per-debt work is independent, so a list traversal is faithful.
-/

namespace TrueAccord

/-- Half-away-from-zero rounding of a rational to an integer, the rounding
mode of `shopspring/decimal.Decimal.Round`. -/
def roundHalfAway (x : ℚ) : ℤ :=
  if 0 ≤ x then ⌊x + 1 / 2⌋ else -⌊-x + 1 / 2⌋

/-- Model of `Decimal.Round(2)`: round to two decimal places, half away
from zero. -/
def round2 (x : ℚ) : ℚ :=
  (roundHalfAway (x * 100) : ℚ) / 100

/-- Model of the `Payment` struct after ingestion: the `date` field holds the
parsed `time.Time` of the `Date` string; `scheduled` is the private flag set
by `tagScheduledPayments`, `false` on a freshly fetched payment. -/
structure Payment where
  amount : ℚ
  date : ℤ
  paymentPlanID : ℤ
  scheduled : Bool
deriving DecidableEq, Repr

/-- Model of the `PaymentPlan` struct after ingestion: `startDate` is the
parsed `StartDate`; `payments` and `schedule` are the private fields filled
in by `normalizeData` (empty on a freshly fetched plan).  The Go `schedule`
map from `time.Time` to `decimal.Decimal` is a list of key-value pairs in
insertion order (its only reads are key lookups). -/
structure PaymentPlan where
  id : ℤ
  debtID : ℤ
  amountToPay : ℚ
  installmentFrequency : String
  installmentAmount : ℚ
  startDate : ℤ
  payments : List Payment
  schedule : List (ℤ × ℚ)
deriving DecidableEq, Repr

/-- Model of the `Debt` struct: `remainingAmount` and `nextPaymentDate`
start at their zero values (`0` and `nil`, i.e. `none`) and are written by
the reconciliation pass; `remainingAmountCalculated` is the private
write-once cache flag. -/
structure Debt where
  id : ℤ
  amount : ℚ
  inPaymentPlan : Bool
  remainingAmount : ℚ
  remainingAmountCalculated : Bool
  nextPaymentDate : Option ℤ
  paymentPlan : Option PaymentPlan
deriving DecidableEq, Repr

/-- Model of Go `strings.ToLower` as used on cadence labels: lowercase each
character (the labels compared against are pure ASCII, where `Char.toLower`
agrees with the Go mapping). -/
def goToLower (s : String) : String :=
  String.mk (s.data.map Char.toLower)

/-- Model of `paymentFrequencyAsDuration`: lowercase the label, return the
cadence increment in days (the Go code returns `time.ParseDuration` of
`24*7` or `24*14` hours, i.e. exactly 7 or 14 days), or an error (`none`)
for any other label. -/
def paymentFrequencyAsDuration (freq : String) : Option ℤ :=
  if goToLower freq = "weekly" then some 7
  else if goToLower freq = "bi_weekly" then some 14
  else none

/-- The loop of `generatePaymentSchedule`, with explicit fuel: while the
anticipated balance is positive, record `(runningDate, balance)`, advance
the date by the cadence increment and subtract the installment amount.
`none` means the loop did not finish within `fuel` iterations. -/
def genScheduleAux (inst : ℚ) (incr : ℤ) : ℕ → ℤ → ℚ → Option (List (ℤ × ℚ))
  | 0, _, anticipated => if 0 < anticipated then none else some []
  | fuel + 1, runningDate, anticipated =>
    if 0 < anticipated then
      (genScheduleAux inst incr fuel (runningDate + incr) (anticipated - inst)).map
        (fun rest => (runningDate, anticipated) :: rest)
    else some []

/-- Model of `(*PaymentPlan) generatePaymentSchedule`: on a cadence
conversion error the schedule is left `nil` (empty); otherwise it is the
loop above started at the plan start date and target amount. -/
def generatePaymentSchedule (plan : PaymentPlan) (fuel : ℕ) : Option (List (ℤ × ℚ)) :=
  match paymentFrequencyAsDuration plan.installmentFrequency with
  | none => some []
  | some incr => genScheduleAux plan.installmentAmount incr fuel plan.startDate plan.amountToPay

/-- Model of `(*PaymentPlan) isPaymentDateAScheduledDate`: key lookup in the
schedule map. -/
def isPaymentDateAScheduledDate (plan : PaymentPlan) (paymentDate : ℤ) : Bool :=
  plan.schedule.any (fun e => e.1 == paymentDate)

/-- Model of `(*PaymentPlan) tagScheduledPayments`: set each payment's
`scheduled` flag to whether its date is a key of the schedule. -/
def tagScheduledPayments (plan : PaymentPlan) : PaymentPlan :=
  { plan with
    payments := plan.payments.map
      (fun p => { p with scheduled := isPaymentDateAScheduledDate plan p.date }) }

/-- Model of `(*Debt) sumTotalPayments`: fold over the attached payments,
rounding the running sum to two decimal places at every step
(`rvalue = rvalue.Add(payment.Amount).Round(2)`), also counting them;
`(0, 0)` when the debt has no plan. -/
def sumTotalPayments (debt : Debt) : ℚ × ℕ :=
  match debt.paymentPlan with
  | none => (0, 0)
  | some plan =>
    plan.payments.foldl (fun acc p => (round2 (acc.1 + p.amount), acc.2 + 1)) (0, 0)

/-- Model of `(*Debt) calculateRemainingAmount` (the returned value): start
from the debt amount; when a plan is attached whose target differs from the
debt amount and is nonzero, use the plan target instead; subtract the summed
payments and round to two decimal places. -/
def calculateRemainingAmount (debt : Debt) : ℚ :=
  let amountPaid := (sumTotalPayments debt).1
  let base :=
    match debt.paymentPlan with
    | none => debt.amount
    | some plan =>
      if plan.amountToPay = debt.amount then debt.amount
      else if plan.amountToPay = 0 then debt.amount
      else plan.amountToPay
  round2 (base - amountPaid)

/-- The `updateObject` side effect of `calculateRemainingAmount` as run by
`isDebtPaidOff`: compute and cache the remaining amount unless the cache
flag is already set. -/
def cacheRemainingAmount (debt : Debt) : Debt :=
  if debt.remainingAmountCalculated then debt
  else { debt with
         remainingAmount := calculateRemainingAmount debt,
         remainingAmountCalculated := true }

/-- Model of `(*Debt) isDebtPaidOff` (the returned value): the cached (or
just computed) remaining amount is zero or negative. -/
def isDebtPaidOff (debt : Debt) : Bool :=
  decide ((cacheRemainingAmount debt).remainingAmount ≤ 0)

/-- Model of `(*Debt) isPaymentPlanActive` (the returned value): a plan is
attached and the debt is not paid off. -/
def isPaymentPlanActive (debt : Debt) : Bool :=
  match debt.paymentPlan with
  | none => false
  | some _ => ! isDebtPaidOff debt

/-- The scan loop of `calculateNextPaymentDate` over the payments in reverse
(most recent index first).  Outer `none` is the early `return ""` (a
scheduled payment with the zero date, or a cadence conversion error);
`some none` means the loop finished with `nextScheduledDate` still zero;
`some (some d)` means the loop stopped with `nextScheduledDate = d`.  Note
the loop keeps scanning while `nextScheduledDate.IsZero()`, so an assignment
that happens to produce the zero time continues the scan. -/
def scanForNextDate (incr : Option ℤ) : List Payment → Option (Option ℤ)
  | [] => some none
  | p :: rest =>
    if ! p.scheduled then scanForNextDate incr rest
    else if p.date = 0 then none
    else
      match incr with
      | none => none
      | some d =>
        if p.date + d = 0 then scanForNextDate incr rest
        else some (some (p.date + d))

/-- Model of `(*Debt) calculateNextPaymentDate` (the returned string as an
optional date): when the plan is active, scan the payments backward for the
last scheduled payment and add one cadence increment to its date; fall back
to the plan start date when the scan finds none. -/
def calculateNextPaymentDate (debt : Debt) : Option ℤ :=
  if isPaymentPlanActive debt then
    match debt.paymentPlan with
    | none => none
    | some plan =>
      match scanForNextDate (paymentFrequencyAsDuration plan.installmentFrequency)
          plan.payments.reverse with
      | none => none
      | some none => some plan.startDate
      | some (some d) => some d
  else none

/-- The per-debt body of the `normalizeData` loop for a debt whose id has a
matching plan: attach the plan and its payments (filtered from the global
payment list by plan id, order preserved), generate the schedule, tag the
scheduled payments, then - unless the debt is paid off - compute and store
the next payment date (the `updateObject` write happens only for a nonempty
result), and finally set the `InPaymentPlan` flag.  `none` when schedule
generation runs out of fuel. -/
def processDebt (debt0 : Debt) (plan0 : PaymentPlan) (payments : List Payment)
    (fuel : ℕ) : Option Debt :=
  let plan1 := { plan0 with
                 payments := payments.filter (fun p => p.paymentPlanID == plan0.id) }
  match generatePaymentSchedule plan1 fuel with
  | none => none
  | some sched =>
    let plan2 := tagScheduledPayments { plan1 with schedule := sched }
    let debt1 := { debt0 with paymentPlan := some plan2 }
    let debt2 := cacheRemainingAmount debt1
    let debt3 :=
      if isDebtPaidOff debt1 then debt2
      else
        match calculateNextPaymentDate debt2 with
        | none => debt2
        | some d => { debt2 with nextPaymentDate := some d }
    some { debt3 with inPaymentPlan := isPaymentPlanActive debt3 }

/-- Model of `normalizeData`: enrich every debt that has a matching plan
(plans are keyed by debt id), leave the others untouched, and signal the
orphaned-plan error the way the source does: only when MORE THAN ONE plan
is left unmatched (`len(paymentPlans) > 1` after the matched ones are
deleted).  The `Bool` of the result is whether that error is returned. -/
def normalizeData (debts : List Debt) (paymentPlans : List PaymentPlan)
    (payments : List Payment) (fuel : ℕ) : Option (List Debt × Bool) :=
  match debts.mapM (fun debt =>
      match paymentPlans.find? (fun plan => plan.debtID == debt.id) with
      | none => some debt
      | some plan => processDebt debt plan payments fuel) with
  | none => none
  | some processed =>
    let leftoverPlans :=
      paymentPlans.filter (fun plan => debts.all (fun debt => debt.id != plan.debtID))
    some (processed, decide (1 < leftoverPlans.length))

/-- Model of what `main` prints: `populateDebtHierarchy` turns any
`normalizeData` error into an error return, and `main` then prints the error
and exits WITHOUT printing the debts; the enriched list is output only when
no error was signalled. -/
def runOutput (debts : List Debt) (paymentPlans : List PaymentPlan)
    (payments : List Payment) (fuel : ℕ) : Option (List Debt) :=
  match normalizeData debts paymentPlans payments fuel with
  | some (processed, false) => some processed
  | _ => none

/-! ### C1, C9: shape and termination of the generated schedule -/

/-- The schedule as the specification describes it: the pairs
`(start + k * increment, target - k * installment)` for `k < n`, in order. -/
def schedClosed (d incr : ℤ) (a inst : ℚ) (n : ℕ) : List (ℤ × ℚ) :=
  (List.range n).map (fun (k : ℕ) => (d + (k : ℤ) * incr, a - (k : ℚ) * inst))

lemma schedClosed_zero (d incr : ℤ) (a inst : ℚ) : schedClosed d incr a inst 0 = [] := rfl

lemma schedClosed_succ (d incr : ℤ) (a inst : ℚ) (n : ℕ) :
    schedClosed d incr a inst (n + 1)
      = (d, a) :: schedClosed (d + incr) incr (a - inst) inst n := by
  unfold schedClosed
  rw [List.range_succ_eq_map, List.map_cons, List.map_map]
  congr 1
  · simp
  · refine List.map_congr_left ?_
    intro k hk
    simp only [Function.comp_apply, Prod.mk.injEq]
    constructor <;> push_cast <;> ring

/-- The schedule loop, run with enough fuel and a positive installment,
produces exactly the closed-form schedule of length `⌈a / inst⌉`. -/
lemma genScheduleAux_eq_closed (inst : ℚ) (incr : ℤ) (hinst : 0 < inst) :
    ∀ (fuel : ℕ) (d : ℤ) (a : ℚ), (⌈a / inst⌉).toNat ≤ fuel →
      genScheduleAux inst incr fuel d a
        = some (schedClosed d incr a inst (⌈a / inst⌉).toNat) := by
  intro fuel
  induction fuel with
  | zero =>
    intro d a h
    have hn : (⌈a / inst⌉).toNat = 0 := Nat.le_zero.mp h
    have ha : ¬ 0 < a := by
      intro ha
      have h1 : 0 < ⌈a / inst⌉ := Int.ceil_pos.mpr (div_pos ha hinst)
      omega
    rw [hn, schedClosed_zero]
    simp [genScheduleAux, ha]
  | succ fuel ih =>
    intro d a h
    by_cases ha : 0 < a
    · have hceil : 0 < ⌈a / inst⌉ := Int.ceil_pos.mpr (div_pos ha hinst)
      have hstep : (a - inst) / inst = a / inst - 1 := by
        rw [sub_div, div_self hinst.ne']
      have hcast : a / inst - 1 = a / inst - ((1 : ℤ) : ℚ) := by norm_num
      have hsub : ⌈(a - inst) / inst⌉ = ⌈a / inst⌉ - 1 := by
        rw [hstep, hcast, Int.ceil_sub_int]
      have hrec : (⌈(a - inst) / inst⌉).toNat ≤ fuel := by omega
      have hn : (⌈a / inst⌉).toNat = (⌈(a - inst) / inst⌉).toNat + 1 := by omega
      simp only [genScheduleAux]
      rw [if_pos ha, ih (d + incr) (a - inst) hrec, Option.map_some', hn, schedClosed_succ]
    · have hdiv : a / inst ≤ 0 := div_nonpos_iff.mpr (Or.inr ⟨le_of_not_lt ha, hinst.le⟩)
      have h2 : ⌈a / inst⌉ ≤ 0 := Int.ceil_le.mpr (by exact_mod_cast hdiv)
      have hn : (⌈a / inst⌉).toNat = 0 := by omega
      simp only [genScheduleAux]
      rw [if_neg ha, hn, schedClosed_zero]

/-- C1 (amended): for a plan with a recognized cadence, positive target and
positive installment, `generatePaymentSchedule` (with enough fuel for the
loop to finish) produces exactly the pairs `(start + k * incr, target -
k * installment)`: the first pair is `(start, target)`, each subsequent pair
advances the date by one cadence increment and subtracts the installment,
EVERY emitted pair has a strictly positive anticipated balance, and
generation stops as soon as the balance would be ≤ 0 - the terminal
nonpositive pair is NOT included (`target - n * installment ≤ 0` holds for
the length `n` of the schedule, i.e. the pair after the last one would have
been at or below zero). -/
theorem C1_schedule_shape (plan : PaymentPlan) (incr : ℤ) (fuel : ℕ)
    (hfreq : paymentFrequencyAsDuration plan.installmentFrequency = some incr)
    (htarget : 0 < plan.amountToPay) (hinst : 0 < plan.installmentAmount)
    (hfuel : (⌈plan.amountToPay / plan.installmentAmount⌉).toNat ≤ fuel) :
    ∃ n : ℕ, 0 < n ∧
      generatePaymentSchedule plan fuel
        = some (schedClosed plan.startDate incr plan.amountToPay plan.installmentAmount n) ∧
      (schedClosed plan.startDate incr plan.amountToPay plan.installmentAmount n).head?
        = some (plan.startDate, plan.amountToPay) ∧
      (∀ pr ∈ schedClosed plan.startDate incr plan.amountToPay plan.installmentAmount n,
        0 < pr.2) ∧
      plan.amountToPay - (n : ℚ) * plan.installmentAmount ≤ 0 := by
  have hceil : 0 < ⌈plan.amountToPay / plan.installmentAmount⌉ :=
    Int.ceil_pos.mpr (div_pos htarget hinst)
  refine ⟨(⌈plan.amountToPay / plan.installmentAmount⌉).toNat, by omega, ?_, ?_, ?_, ?_⟩
  · unfold generatePaymentSchedule
    rw [hfreq]
    exact genScheduleAux_eq_closed _ _ hinst fuel _ _ hfuel
  · obtain ⟨m, hm⟩ := Nat.exists_eq_succ_of_ne_zero
      (n := (⌈plan.amountToPay / plan.installmentAmount⌉).toNat) (by omega)
    rw [hm, schedClosed_succ]
    rfl
  · intro pr hpr
    unfold schedClosed at hpr
    obtain ⟨k, hkr, rfl⟩ := List.mem_map.mp hpr
    have hk : k < (⌈plan.amountToPay / plan.installmentAmount⌉).toNat :=
      List.mem_range.mp hkr
    have hk1 : (k : ℤ) + 1 ≤ ⌈plan.amountToPay / plan.installmentAmount⌉ := by omega
    have hklt : (k : ℚ) < plan.amountToPay / plan.installmentAmount := by
      exact_mod_cast Int.add_one_le_ceil_iff.mp hk1
    have := (lt_div_iff₀ hinst).mp hklt
    simp only []
    linarith
  · have h1 : plan.amountToPay / plan.installmentAmount
        ≤ ((⌈plan.amountToPay / plan.installmentAmount⌉ : ℤ) : ℚ) := Int.le_ceil _
    have h2 : (⌈plan.amountToPay / plan.installmentAmount⌉ : ℤ)
        ≤ (((⌈plan.amountToPay / plan.installmentAmount⌉).toNat : ℤ)) :=
      Int.self_le_toNat _
    have h3 : plan.amountToPay / plan.installmentAmount
        ≤ (((⌈plan.amountToPay / plan.installmentAmount⌉).toNat : ℕ) : ℚ) := by
      refine le_trans h1 ?_
      exact_mod_cast h2
    have := (div_le_iff₀ hinst).mp h3
    linarith

/-- Concrete weekly plan (target 10, installment 4, start day 0) used to
settle C1: the source emits `[(0,10), (7,6), (14,2)]` and stops. -/
def planC1 : PaymentPlan :=
  ⟨1, 1, 10, "weekly", 4, 0, [], []⟩

/-- C1 counterexample to the claim as stated: on `planC1` the generated
schedule is exactly `[(0,10), (7,6), (14,2)]` and every emitted balance
(10, 6 and 2) is strictly positive, so the terminal pair with balance at or
below zero (it would be `(21, -2)`) is NOT included in the schedule. -/
theorem C1_terminal_pair_not_included :
    generatePaymentSchedule planC1 3 = some [(0, 10), (7, 6), (14, 2)] ∧
    (0 : ℚ) < 10 ∧ (0 : ℚ) < 6 ∧ (0 : ℚ) < 2 := by
  have hf : paymentFrequencyAsDuration planC1.installmentFrequency = some 7 := by decide
  refine ⟨?_, by norm_num, by norm_num, by norm_num⟩
  unfold generatePaymentSchedule
  rw [hf]
  norm_num [genScheduleAux, planC1, schedClosed]

/-- Witness for C1 at the concrete plan `planC1` with fuel 3. -/
theorem C1_schedule_shape_witness :
    ∃ n : ℕ, 0 < n ∧
      generatePaymentSchedule planC1 3
        = some (schedClosed planC1.startDate 7 planC1.amountToPay planC1.installmentAmount n) ∧
      (schedClosed planC1.startDate 7 planC1.amountToPay planC1.installmentAmount n).head?
        = some (planC1.startDate, planC1.amountToPay) ∧
      (∀ pr ∈ schedClosed planC1.startDate 7 planC1.amountToPay planC1.installmentAmount n,
        0 < pr.2) ∧
      planC1.amountToPay - (n : ℚ) * planC1.installmentAmount ≤ 0 :=
  C1_schedule_shape planC1 7 3 (by decide) (by norm_num [planC1]) (by norm_num [planC1])
    (by norm_num [planC1, Int.ceil_le])

/-- The schedule loop never finishes when the installment is nonpositive and
the balance starts positive: the balance never decreases, so every fuel
bound is exhausted. -/
lemma genScheduleAux_loops (inst : ℚ) (incr : ℤ) (hinst : inst ≤ 0) :
    ∀ (fuel : ℕ) (d : ℤ) (a : ℚ), 0 < a → genScheduleAux inst incr fuel d a = none := by
  intro fuel
  induction fuel with
  | zero =>
    intro d a ha
    simp [genScheduleAux, ha]
  | succ fuel ih =>
    intro d a ha
    have ha' : 0 < a - inst := by linarith
    simp [genScheduleAux, ha, ih (d + incr) (a - inst) ha']

/-- Concrete weekly plan with target 100 and installment 0 for C9. -/
def planC9 : PaymentPlan :=
  ⟨9, 9, 100, "weekly", 0, 0, [], []⟩

/-- C9: on a recognized cadence with positive target and zero installment,
`generatePaymentSchedule` does NOT terminate - for every fuel bound the
loop is still running (the model returns `none` for all fuel), exhibiting
the non-termination defect the specification requires fixing. -/
theorem C9_zero_installment_loops :
    ∀ fuel : ℕ, generatePaymentSchedule planC9 fuel = none := by
  intro fuel
  have hf : paymentFrequencyAsDuration planC9.installmentFrequency = some 7 := by decide
  unfold generatePaymentSchedule
  rw [hf]
  exact genScheduleAux_loops _ _ (by norm_num [planC9]) fuel _ _ (by norm_num [planC9])

/-! ### C5: the scheduled flag is exact membership in the schedule date set -/

lemma isPaymentDateAScheduledDate_eq_mem (plan : PaymentPlan) (d : ℤ) :
    isPaymentDateAScheduledDate plan d = decide (d ∈ plan.schedule.map Prod.fst) := by
  rw [Bool.eq_iff_iff]
  simp only [isPaymentDateAScheduledDate, List.any_eq_true, beq_iff_eq, List.mem_map,
    decide_eq_true_eq]

/-- C5: `tagScheduledPayments` rewrites every payment's `scheduled` flag to
exactly the test "the payment's date is a member of the schedule's date
set", leaving all other fields (amount, date, plan id) unchanged.  In
particular a payment dated exactly on a schedule date is tagged scheduled,
and a payment whose date is not a schedule key (even one day off) is tagged
unscheduled, regardless of its amount (the right-hand side reads nothing of
the payment except its date). -/
theorem C5_scheduled_flag_iff_membership (plan : PaymentPlan) :
    (tagScheduledPayments plan).payments
      = plan.payments.map
          (fun p => { p with scheduled := decide (p.date ∈ plan.schedule.map Prod.fst) }) := by
  unfold tagScheduledPayments
  simp only [isPaymentDateAScheduledDate_eq_mem]

/-! ### C4, C7: the remaining amount -/

/-- C4 (amended): the remaining amount equals `round2` of (the plan's target
when a plan is attached and the target is nonzero, otherwise the debt's own
amount) minus the program's running-rounded payment sum.  In particular a
zero plan target is ignored in favor of the debt's raw amount, and a debt
with no plan has remaining amount `round2 (amount)` (its amount rounded to
two decimal places). -/
theorem C4_remaining_amount_formula (debt : Debt) :
    calculateRemainingAmount debt
      = round2 ((match debt.paymentPlan with
                 | none => debt.amount
                 | some plan => if plan.amountToPay = 0 then debt.amount else plan.amountToPay)
          - (sumTotalPayments debt).1) := by
  unfold calculateRemainingAmount
  cases h : debt.paymentPlan with
  | none => rfl
  | some plan =>
    show round2 ((if plan.amountToPay = debt.amount then debt.amount
        else if plan.amountToPay = 0 then debt.amount else plan.amountToPay)
        - (sumTotalPayments debt).1)
      = round2 ((if plan.amountToPay = 0 then debt.amount else plan.amountToPay)
        - (sumTotalPayments debt).1)
    congr 2
    by_cases h1 : plan.amountToPay = debt.amount
    · by_cases h2 : plan.amountToPay = 0
      · rw [if_pos h1, if_pos h2]
      · rw [if_pos h1, if_neg h2, h1]
    · rw [if_neg h1]

/-- Debt with amount 0.005 and no plan, for the C4 counterexample. -/
def debtC4 : Debt :=
  ⟨4, 1 / 200, false, 0, false, none, none⟩

/-- C4 counterexample to the claim as stated: a debt with no plan and amount
0.005 gets remaining amount 0.01 (the subtraction result is rounded to two
decimal places), which is NOT equal to its amount. -/
theorem C4_no_plan_rounding :
    calculateRemainingAmount debtC4 = 1 / 100 ∧ (1 : ℚ) / 100 ≠ 1 / 200 := by
  constructor
  · norm_num [calculateRemainingAmount, sumTotalPayments, debtC4, round2, roundHalfAway]
  · norm_num

/-- The C7 scenario: debt amount 100.00, attached plan with target 0.00, one
attached payment of 100.00. -/
def planC7 : PaymentPlan :=
  ⟨7, 7, 0, "weekly", 25, 10, [⟨100, 17, 7, false⟩], []⟩

def debtC7 : Debt :=
  ⟨7, 100, false, 0, false, none, some planC7⟩

/-- C7 counterexample to the claim as stated: on the scenario's input the
remaining amount is 0, not -100. -/
theorem C7_scenario_not_negative :
    calculateRemainingAmount debtC7 = 0 ∧ (0 : ℚ) ≠ -100 := by
  constructor
  · norm_num [calculateRemainingAmount, sumTotalPayments, debtC7, planC7, round2, roundHalfAway]
  · norm_num

/-- C7 (amended): on the scenario's input (amount 100.00, degenerate plan
target 0.00 overridden by the raw amount, one payment of 100.00) the
remaining amount evaluates to 0.00 and the debt counts as paid off. -/
theorem C7_scenario_value :
    calculateRemainingAmount debtC7 = 0 ∧ isDebtPaidOff debtC7 = true := by
  constructor
  · norm_num [calculateRemainingAmount, sumTotalPayments, debtC7, planC7, round2, roundHalfAway]
  · norm_num [isDebtPaidOff, cacheRemainingAmount, calculateRemainingAmount, sumTotalPayments,
      debtC7, planC7, round2, roundHalfAway]

/-! ### C6: rounding inside the payment sum -/

lemma sumTotalPayments_foldl_fst (l : List Payment) :
    ∀ (a : ℚ) (n : ℕ),
      (l.foldl (fun acc p => (round2 (acc.1 + p.amount), acc.2 + 1)) (a, n)).1
        = l.foldl (fun acc p => round2 (acc + p.amount)) a := by
  induction l with
  | nil => intro a n; rfl
  | cons p t ih => intro a n; exact ih _ _

lemma sumTotalPayments_fst (debt : Debt) (plan : PaymentPlan)
    (h : debt.paymentPlan = some plan) :
    (sumTotalPayments debt).1
      = plan.payments.foldl (fun acc p => round2 (acc + p.amount)) 0 := by
  unfold sumTotalPayments
  rw [h]
  exact sumTotalPayments_foldl_fst _ 0 0

/-- Rounding to two decimal places is the identity on whole numbers of
cents. -/
lemma round2_cents (k : ℤ) : round2 ((k : ℚ) / 100) = (k : ℚ) / 100 := by
  unfold round2 roundHalfAway
  have h100 : ((k : ℚ) / 100) * 100 = (k : ℚ) := by field_simp
  rw [h100]
  by_cases hk : 0 ≤ (k : ℚ)
  · rw [if_pos hk, Int.floor_int_add]
    norm_num
  · rw [if_neg hk, show -(k : ℚ) = ((-k : ℤ) : ℚ) by push_cast; ring, Int.floor_int_add]
    push_cast
    norm_num

lemma foldl_round2_cents :
    ∀ l : List Payment, (∀ p ∈ l, ∃ k : ℤ, p.amount = (k : ℚ) / 100) →
      ∀ m : ℤ, l.foldl (fun acc p => round2 (acc + p.amount)) ((m : ℚ) / 100)
        = (m : ℚ) / 100 + (l.map Payment.amount).sum := by
  intro l
  induction l with
  | nil => intro _ m; simp
  | cons p t ih =>
    intro hc m
    obtain ⟨k, hk⟩ := hc p (List.mem_cons_self p t)
    have step : round2 ((m : ℚ) / 100 + p.amount) = ((m + k : ℤ) : ℚ) / 100 := by
      rw [hk, show (m : ℚ) / 100 + (k : ℚ) / 100 = ((m + k : ℤ) : ℚ) / 100 by push_cast; ring,
        round2_cents]
    calc (p :: t).foldl (fun acc q => round2 (acc + q.amount)) ((m : ℚ) / 100)
        = t.foldl (fun acc q => round2 (acc + q.amount)) (round2 ((m : ℚ) / 100 + p.amount)) :=
          rfl
      _ = t.foldl (fun acc q => round2 (acc + q.amount)) (((m + k : ℤ) : ℚ) / 100) := by
          rw [step]
      _ = ((m + k : ℤ) : ℚ) / 100 + (t.map Payment.amount).sum :=
          ih (fun q hq => hc q (List.mem_cons_of_mem p hq)) (m + k)
      _ = (m : ℚ) / 100 + ((p :: t).map Payment.amount).sum := by
          rw [List.map_cons, List.sum_cons, hk]
          push_cast
          ring

lemma cents_sum :
    ∀ l : List Payment, (∀ p ∈ l, ∃ k : ℤ, p.amount = (k : ℚ) / 100) →
      ∃ K : ℤ, (l.map Payment.amount).sum = (K : ℚ) / 100 := by
  intro l
  induction l with
  | nil => intro _; exact ⟨0, by simp⟩
  | cons p t ih =>
    intro hc
    obtain ⟨k, hk⟩ := hc p (List.mem_cons_self p t)
    obtain ⟨K, hK⟩ := ih (fun q hq => hc q (List.mem_cons_of_mem p hq))
    refine ⟨k + K, ?_⟩
    rw [List.map_cons, List.sum_cons, hk, hK]
    push_cast
    ring

/-- C6 (amended): `sumTotalPayments` rounds the running sum to two decimal
places at every step; whenever every payment amount is a whole number of
cents (the invariant domain of currency data) this running-rounded fold
still equals `round2` of the exact sum of all amounts, as the claim
states. -/
theorem C6_sum_rounding (debt : Debt) (plan : PaymentPlan)
    (h : debt.paymentPlan = some plan)
    (hc : ∀ p ∈ plan.payments, ∃ k : ℤ, p.amount = (k : ℚ) / 100) :
    (sumTotalPayments debt).1 = round2 ((plan.payments.map Payment.amount).sum) := by
  rw [sumTotalPayments_fst debt plan h]
  obtain ⟨K, hK⟩ := cents_sum plan.payments hc
  have h0 : (0 : ℚ) = ((0 : ℤ) : ℚ) / 100 := by norm_num
  rw [h0, foldl_round2_cents plan.payments hc 0, hK, round2_cents]
  push_cast
  ring

/-- Plan with two payments of 0.005 each, for the C6 counterexample. -/
def planC6 : PaymentPlan :=
  ⟨6, 6, 10, "weekly", 1, 0, [⟨1 / 200, 3, 6, false⟩, ⟨1 / 200, 5, 6, false⟩], []⟩

def debtC6 : Debt :=
  ⟨6, 10, false, 0, false, none, some planC6⟩

/-- C6 counterexample to the claim as stated: with two attached payments of
0.005, the program's per-term rounding yields 0.02, while `round2` applied
once after the whole summation yields 0.01; the two disagree. -/
theorem C6_per_term_rounding :
    (sumTotalPayments debtC6).1 = 1 / 50 ∧ round2 (1 / 200 + 1 / 200) = 1 / 100 ∧
    (1 : ℚ) / 50 ≠ 1 / 100 := by
  refine ⟨?_, ?_, by norm_num⟩
  · norm_num [sumTotalPayments, debtC6, planC6, round2, roundHalfAway]
  · norm_num [round2, roundHalfAway]

/-- Plan with cent-multiple payments 1.25 and 2.50 for the C6 witness. -/
def planC6W : PaymentPlan :=
  ⟨61, 61, 10, "weekly", 1, 0, [⟨5 / 4, 10, 61, false⟩, ⟨5 / 2, 17, 61, false⟩], []⟩

def debtC6W : Debt :=
  ⟨61, 10, false, 0, false, none, some planC6W⟩

/-- Witness for C6 at a concrete debt whose payments are 1.25 and 2.50. -/
theorem C6_sum_rounding_witness :
    (sumTotalPayments debtC6W).1 = round2 ((planC6W.payments.map Payment.amount).sum) :=
  C6_sum_rounding debtC6W planC6W rfl (by
    intro p hp
    simp only [planC6W, List.mem_cons, List.not_mem_nil, or_false] at hp
    rcases hp with h | h
    · exact ⟨125, by rw [h]; norm_num⟩
    · exact ⟨250, by rw [h]; norm_num⟩)

/-! ### C2: the next payment date -/

lemma paymentFrequencyAsDuration_pos (f : String) (n : ℤ)
    (h : paymentFrequencyAsDuration f = some n) : 0 < n := by
  unfold paymentFrequencyAsDuration at h
  split at h
  · injection h with h1
    omega
  · split at h
    · injection h with h1
      omega
    · exact Option.noConfusion h

/-- On a payment list all of whose dates are positive day numbers (every
parsed calendar date of the data is), the backward scan returns exactly
"the first scheduled payment's date plus the increment, if one exists". -/
lemma scanForNextDate_pos_dates (incr : ℤ) :
    ∀ l : List Payment, (∀ p ∈ l, 0 < p.date) → 0 < incr →
      scanForNextDate (some incr) l
        = some ((l.find? (fun p => p.scheduled)).map (fun p => p.date + incr)) := by
  intro l
  induction l with
  | nil => intro _ _; rfl
  | cons p t ih =>
    intro hd hincr
    have hp : 0 < p.date := hd p (List.mem_cons_self p t)
    by_cases hs : p.scheduled = true
    · have h1 : ¬ p.date = 0 := by omega
      have h2 : ¬ p.date + incr = 0 := by omega
      simp [scanForNextDate, hs, h1, h2, List.find?]
    · have hs' : p.scheduled = false := by
        cases hps : p.scheduled
        · rfl
        · exact absurd hps hs
      simp [scanForNextDate, hs', List.find?,
        ih (fun q hq => hd q (List.mem_cons_of_mem p hq)) hincr]

/-- C2: for a debt with an attached active plan of recognized cadence whose
payment dates are genuine (positive) calendar days, the next payment date is
computed by scanning the payments from the end of the list (most recent
first, under the date-sorted attachment order), skipping every payment whose
scheduled flag is false, and returning the first scheduled payment's date
plus one cadence increment; when no scheduled payment exists (in particular
when there are no payments at all) the plan's start date is returned. -/
theorem C2_next_payment_date (debt : Debt) (plan : PaymentPlan) (incr : ℤ)
    (hplan : debt.paymentPlan = some plan)
    (hact : isPaymentPlanActive debt = true)
    (hfreq : paymentFrequencyAsDuration plan.installmentFrequency = some incr)
    (hdates : ∀ p ∈ plan.payments, 0 < p.date) :
    calculateNextPaymentDate debt
      = some (match plan.payments.reverse.find? (fun p => p.scheduled) with
              | some p => p.date + incr
              | none => plan.startDate) := by
  have hincr : 0 < incr := paymentFrequencyAsDuration_pos _ _ hfreq
  have hrev : ∀ p ∈ plan.payments.reverse, 0 < p.date := by
    intro p hp
    exact hdates p (List.mem_reverse.mp hp)
  unfold calculateNextPaymentDate
  rw [hact, if_pos rfl, hplan]
  dsimp only
  rw [hfreq, scanForNextDate_pos_dates incr plan.payments.reverse hrev hincr]
  cases hfind : plan.payments.reverse.find? (fun p => p.scheduled) with
  | none => simp
  | some p => simp

/-- Concrete active weekly plan with two scheduled payments (days 10 and
17), for the C2 witness: the resolver returns 17 + 7 = 24. -/
def planC2 : PaymentPlan :=
  ⟨2, 2, 100, "weekly", 5, 10, [⟨5, 10, 2, true⟩, ⟨5, 17, 2, true⟩], []⟩

def debtC2 : Debt :=
  ⟨2, 100, false, 0, false, none, some planC2⟩

/-- Witness for C2 at the concrete debt `debtC2`. -/
theorem C2_next_payment_date_witness :
    calculateNextPaymentDate debtC2 = some 24 := by
  have hact : isPaymentPlanActive debtC2 = true := by
    norm_num [isPaymentPlanActive, isDebtPaidOff, cacheRemainingAmount, calculateRemainingAmount,
      sumTotalPayments, debtC2, planC2, round2, roundHalfAway]
  have h := C2_next_payment_date debtC2 planC2 7 rfl hact (by decide) (by decide)
  rw [h]
  rfl

/-! ### Shared facts about the per-debt enrichment -/

lemma cacheRemainingAmount_paymentPlan (debt : Debt) :
    (cacheRemainingAmount debt).paymentPlan = debt.paymentPlan := by
  unfold cacheRemainingAmount
  split <;> rfl

lemma cacheRemainingAmount_calculated (debt : Debt) :
    (cacheRemainingAmount debt).remainingAmountCalculated = true := by
  unfold cacheRemainingAmount
  split <;> simp_all

lemma cacheRemainingAmount_nextPaymentDate (debt : Debt) :
    (cacheRemainingAmount debt).nextPaymentDate = debt.nextPaymentDate := by
  unfold cacheRemainingAmount
  split <;> rfl

lemma cacheRemainingAmount_idem (debt : Debt) :
    cacheRemainingAmount (cacheRemainingAmount debt) = cacheRemainingAmount debt := by
  by_cases h : debt.remainingAmountCalculated = true <;>
    simp [cacheRemainingAmount, h]

lemma isDebtPaidOff_cacheRemainingAmount (debt : Debt) :
    isDebtPaidOff (cacheRemainingAmount debt) = isDebtPaidOff debt := by
  unfold isDebtPaidOff
  rw [cacheRemainingAmount_idem]

/-- Schedule generation reads only the plan parameters, never the attached
payments. -/
lemma generatePaymentSchedule_payments_irrel (plan : PaymentPlan) (ps : List Payment)
    (fuel : ℕ) :
    generatePaymentSchedule { plan with payments := ps } fuel
      = generatePaymentSchedule plan fuel := rfl

/-- The plan as `processDebt` attaches it to the debt: payments filtered by
plan id from the global list, the given schedule, flags retagged. -/
def attachedPlan (plan0 : PaymentPlan) (payments : List Payment)
    (sched : List (ℤ × ℚ)) : PaymentPlan :=
  tagScheduledPayments
    { plan0 with
      payments := payments.filter (fun p => p.paymentPlanID == plan0.id),
      schedule := sched }

/-- `processDebt` written out: once schedule generation succeeds, the rest
of the per-debt loop body is total. -/
lemma processDebt_characterization (debt0 : Debt) (plan0 : PaymentPlan)
    (payments : List Payment) (fuel : ℕ) (sched : List (ℤ × ℚ))
    (hsched : generatePaymentSchedule plan0 fuel = some sched) :
    processDebt debt0 plan0 payments fuel
      = some (
          let debt1 : Debt := { debt0 with paymentPlan := some (attachedPlan plan0 payments sched) };
          let debt2 := cacheRemainingAmount debt1;
          let debt3 := if isDebtPaidOff debt1 then debt2
            else match calculateNextPaymentDate debt2 with
                 | none => debt2
                 | some d => { debt2 with nextPaymentDate := some d };
          { debt3 with inPaymentPlan := isPaymentPlanActive debt3 }) := by
  have hsched' : generatePaymentSchedule
      { plan0 with payments := payments.filter (fun p => p.paymentPlanID == plan0.id) } fuel
      = some sched := hsched
  unfold processDebt
  dsimp only
  rw [hsched']
  rfl

/-! ### C8: unrecognized installment frequency -/

lemma scanForNextDate_all_unscheduled (incr : Option ℤ) :
    ∀ l : List Payment, (∀ p ∈ l, p.scheduled = false) →
      scanForNextDate incr l = some none := by
  intro l
  induction l with
  | nil => intro _; rfl
  | cons p t ih =>
    intro h
    have hp : p.scheduled = false := h p (List.mem_cons_self p t)
    simp [scanForNextDate, hp, ih (fun q hq => h q (List.mem_cons_of_mem p hq))]

/-- With an unrecognized cadence the generated schedule is empty, so every
payment is tagged unscheduled. -/
lemma attachedPlan_empty_schedule_flags (plan0 : PaymentPlan) (payments : List Payment) :
    ∀ p ∈ (attachedPlan plan0 payments []).payments, p.scheduled = false := by
  intro p hp
  unfold attachedPlan tagScheduledPayments at hp
  obtain ⟨q, hq, rfl⟩ := List.mem_map.mp hp
  rfl

/-- C8 (amended): a plan whose installment frequency is unrecognized is a
recoverable per-plan condition - `processDebt` still completes (the run is
not aborted) - but the debt's derived fields are NOT left at their
defaults: the schedule is left empty and every payment is tagged
unscheduled, the remaining amount IS computed and cached (its formula does
not involve the cadence), and when the debt is not paid off the next
payment date is set to the plan's start date (the no-scheduled-payment
fallback), not left unset. -/
theorem C8_unrecognized_cadence (debt0 : Debt) (plan0 : PaymentPlan)
    (payments : List Payment) (fuel : ℕ)
    (hfreq : paymentFrequencyAsDuration plan0.installmentFrequency = none) :
    ∃ debtF, processDebt debt0 plan0 payments fuel = some debtF ∧
      debtF.paymentPlan = some (attachedPlan plan0 payments []) ∧
      (∀ p ∈ (attachedPlan plan0 payments []).payments, p.scheduled = false) ∧
      debtF.remainingAmountCalculated = true ∧
      (¬ debtF.remainingAmount ≤ 0 → debtF.nextPaymentDate = some plan0.startDate) := by
  have hsched : generatePaymentSchedule plan0 fuel = some [] := by
    unfold generatePaymentSchedule
    rw [hfreq]
  have hflags : ∀ p ∈ (attachedPlan plan0 payments []).payments, p.scheduled = false :=
    attachedPlan_empty_schedule_flags plan0 payments
  rw [processDebt_characterization debt0 plan0 payments fuel [] hsched]
  dsimp only
  set planF := attachedPlan plan0 payments [] with hplanF
  set debt1 : Debt := { debt0 with paymentPlan := some planF } with hdebt1
  set debt2 := cacheRemainingAmount debt1 with hdebt2
  have hplan2 : debt2.paymentPlan = some planF := by
    rw [hdebt2, cacheRemainingAmount_paymentPlan]
  by_cases hpaid : isDebtPaidOff debt1 = true
  · rw [if_pos hpaid]
    refine ⟨_, rfl, ?_, hflags, ?_, ?_⟩
    · exact hplan2
    · show debt2.remainingAmountCalculated = true
      rw [hdebt2, cacheRemainingAmount_calculated]
    · intro hne
      exact absurd (of_decide_eq_true hpaid) hne
  · have hpaid' : isDebtPaidOff debt1 = false := by
      cases h : isDebtPaidOff debt1
      · rfl
      · exact absurd h hpaid
    have hact2 : isPaymentPlanActive debt2 = true := by
      unfold isPaymentPlanActive
      rw [hplan2, hdebt2, isDebtPaidOff_cacheRemainingAmount, hpaid']
      rfl
    have hnext : calculateNextPaymentDate debt2 = some plan0.startDate := by
      unfold calculateNextPaymentDate
      rw [hact2, if_pos rfl, hplan2]
      dsimp only
      rw [scanForNextDate_all_unscheduled _ planF.payments.reverse
        (fun p hp => hflags p (List.mem_reverse.mp hp))]
      rfl
    rw [if_neg hpaid, hnext]
    refine ⟨_, rfl, ?_, hflags, ?_, ?_⟩
    · exact hplan2
    · show debt2.remainingAmountCalculated = true
      rw [hdebt2, cacheRemainingAmount_calculated]
    · intro _
      rfl

/-- Concrete input for C8: plan with cadence label "monthly", target 50,
installment 10, start day 40; one attached payment of 5 at day 47; debt
amount 100. -/
def planC8 : PaymentPlan :=
  ⟨3, 3, 50, "monthly", 10, 40, [], []⟩

def debtC8 : Debt :=
  ⟨3, 100, false, 0, false, none, none⟩

def paymentsC8 : List Payment :=
  [⟨5, 47, 3, false⟩]

/-- C8 counterexample to the claim as stated: on the concrete "monthly"
plan the processed debt does NOT keep its derived fields at their defaults:
the next payment date is set to the plan's start date 40 and the remaining
amount is computed (50 - 5 = 45) and cached. -/
theorem C8_fields_are_set :
    (processDebt debtC8 planC8 paymentsC8 0).map
        (fun d => (d.nextPaymentDate, d.remainingAmountCalculated, d.remainingAmount))
      = some (some 40, true, 45) := by
  have hfreq : paymentFrequencyAsDuration planC8.installmentFrequency = none := by decide
  have hsched : generatePaymentSchedule planC8 0 = some [] := by
    unfold generatePaymentSchedule
    rw [hfreq]
  rw [processDebt_characterization debtC8 planC8 paymentsC8 0 [] hsched]
  norm_num [attachedPlan, tagScheduledPayments, isPaymentDateAScheduledDate,
    cacheRemainingAmount, calculateRemainingAmount, sumTotalPayments, round2, roundHalfAway,
    isDebtPaidOff, isPaymentPlanActive, calculateNextPaymentDate, scanForNextDate,
    List.filter, debtC8, planC8, paymentsC8]

/-- Witness for C8 at the concrete "monthly" input. -/
theorem C8_unrecognized_cadence_witness :
    ∃ debtF, processDebt debtC8 planC8 paymentsC8 0 = some debtF ∧
      debtF.paymentPlan = some (attachedPlan planC8 paymentsC8 []) ∧
      (∀ p ∈ (attachedPlan planC8 paymentsC8 []).payments, p.scheduled = false) ∧
      debtF.remainingAmountCalculated = true ∧
      (¬ debtF.remainingAmount ≤ 0 → debtF.nextPaymentDate = some planC8.startDate) :=
  C8_unrecognized_cadence debtC8 planC8 paymentsC8 0 (by decide)

/-! ### C3: orphaned payment plans -/

def debtC3 : Debt :=
  ⟨1, 100, false, 0, false, none, none⟩

/-- An orphaned plan: its debt id 99 matches no debt. -/
def planOrphanA : PaymentPlan :=
  ⟨90, 99, 100, "weekly", 10, 0, [], []⟩

/-- A second orphaned plan (debt id 98). -/
def planOrphanB : PaymentPlan :=
  ⟨91, 98, 100, "weekly", 10, 0, [], []⟩

/-- C3: the source checks `len(paymentPlans) > 1` after the join, so with
EXACTLY ONE orphaned plan left over `normalizeData` signals NO error at all
(first conjunct, error flag `false`), contrary to the claim that any nonzero
leftover count is signalled; and when the error IS signalled (two orphans),
`main` aborts after `populateDebtHierarchy` wraps the error, printing the
error INSTEAD of the enriched debts (second conjunct: no output), contrary
to the claim that the error is non-fatal for the joined results. -/
theorem C3_orphan_error_evaluation :
    normalizeData [debtC3] [planOrphanA] [] 0 = some ([debtC3], false) ∧
    runOutput [debtC3] [planOrphanA, planOrphanB] [] 0 = none := by
  constructor
  · rfl
  · rfl

/-! ### C10: the attached payment list -/

/-- The ingestion-time content of a payment: amount, date and plan foreign
key (everything except the derived `scheduled` flag). -/
def paymentKey (p : Payment) : ℚ × ℤ × ℤ :=
  (p.amount, p.date, p.paymentPlanID)

/-- The final debt produced by `processDebt` carries exactly the attached
plan (payments filtered by plan id, schedule attached, flags tagged). -/
lemma processDebt_paymentPlan (debt0 : Debt) (plan0 : PaymentPlan)
    (payments : List Payment) (fuel : ℕ) (sched : List (ℤ × ℚ))
    (hsched : generatePaymentSchedule plan0 fuel = some sched) :
    ∃ debtF, processDebt debt0 plan0 payments fuel = some debtF ∧
      debtF.paymentPlan = some (attachedPlan plan0 payments sched) := by
  rw [processDebt_characterization debt0 plan0 payments fuel sched hsched]
  dsimp only
  set planF := attachedPlan plan0 payments sched
  set debt1 : Debt := { debt0 with paymentPlan := some planF } with hdebt1
  set debt2 := cacheRemainingAmount debt1 with hdebt2
  have hplan2 : debt2.paymentPlan = some planF := by
    rw [hdebt2, cacheRemainingAmount_paymentPlan]
  by_cases hpaid : isDebtPaidOff debt1 = true
  · rw [if_pos hpaid]
    exact ⟨_, rfl, hplan2⟩
  · rw [if_neg hpaid]
    cases hnext : calculateNextPaymentDate debt2 with
    | none => exact ⟨_, rfl, hplan2⟩
    | some d => exact ⟨_, rfl, hplan2⟩

/-- C10: after enrichment the debt's attached payment list consists exactly
of the fetched payments whose plan foreign key equals the plan's id - as a
list it IS the date-sorted global list filtered by the plan id (first list
equation, stated on `paymentKey` because tagging rewrites the derived
`scheduled` flag), hence a permutation of the raw fetched payments with
that foreign key - and it is sorted in non-decreasing date order, the
ordering the backward scan of `calculateNextPaymentDate` relies on.
`sorted` stands for the output of the date sort at the end of
`retrievePayments` (a permutation of the raw fetch, non-decreasing in
date); the sort itself is Go library code. -/
theorem C10_attached_payments_sorted (raw sorted : List Payment) (debt0 : Debt)
    (plan0 : PaymentPlan) (fuel : ℕ) (sched : List (ℤ × ℚ))
    (hperm : sorted.Perm raw)
    (hsort : sorted.Sorted (fun a b => a.date ≤ b.date))
    (hsched : generatePaymentSchedule plan0 fuel = some sched) :
    ∃ debtF, processDebt debt0 plan0 sorted fuel = some debtF ∧
      debtF.paymentPlan = some (attachedPlan plan0 sorted sched) ∧
      (attachedPlan plan0 sorted sched).payments.map paymentKey
        = (sorted.filter (fun p => p.paymentPlanID == plan0.id)).map paymentKey ∧
      ((attachedPlan plan0 sorted sched).payments.map paymentKey).Perm
        ((raw.filter (fun p => p.paymentPlanID == plan0.id)).map paymentKey) ∧
      (attachedPlan plan0 sorted sched).payments.Sorted (fun a b => a.date ≤ b.date) := by
  obtain ⟨debtF, hproc, hplanF⟩ :=
    processDebt_paymentPlan debt0 plan0 sorted fuel sched hsched
  have he : (attachedPlan plan0 sorted sched).payments.map paymentKey
      = (sorted.filter (fun p => p.paymentPlanID == plan0.id)).map paymentKey := by
    unfold attachedPlan tagScheduledPayments
    dsimp only
    rw [List.map_map]
    exact List.map_congr_left (fun p _ => rfl)
  refine ⟨debtF, hproc, hplanF, he, ?_, ?_⟩
  · rw [he]
    exact (hperm.filter _).map paymentKey
  · unfold attachedPlan tagScheduledPayments
    dsimp only
    have hq : (sorted.filter (fun p => p.paymentPlanID == plan0.id)).Pairwise
        (fun a b => a.date ≤ b.date) :=
      List.Pairwise.sublist (List.filter_sublist _) hsort
    rw [List.Sorted, List.pairwise_map]
    exact hq

def paymentW1 : Payment :=
  ⟨5, 10, 2, false⟩

def paymentW2 : Payment :=
  ⟨5, 20, 2, false⟩

/-- Raw fetched payments, out of date order. -/
def rawC10 : List Payment :=
  [paymentW2, paymentW1]

/-- The same payments after the date sort of `retrievePayments`. -/
def sortedC10 : List Payment :=
  [paymentW1, paymentW2]

def planC10 : PaymentPlan :=
  ⟨2, 2, 10, "weekly", 5, 0, [], []⟩

def debtC10 : Debt :=
  ⟨2, 10, false, 0, false, none, none⟩

def schedC10 : List (ℤ × ℚ) :=
  [(0, 10), (7, 5)]

/-- Witness for C10 at a concrete two-payment input. -/
theorem C10_attached_payments_sorted_witness :
    ∃ debtF, processDebt debtC10 planC10 sortedC10 2 = some debtF ∧
      debtF.paymentPlan = some (attachedPlan planC10 sortedC10 schedC10) ∧
      (attachedPlan planC10 sortedC10 schedC10).payments.map paymentKey
        = (sortedC10.filter (fun p => p.paymentPlanID == planC10.id)).map paymentKey ∧
      ((attachedPlan planC10 sortedC10 schedC10).payments.map paymentKey).Perm
        ((rawC10.filter (fun p => p.paymentPlanID == planC10.id)).map paymentKey) ∧
      (attachedPlan planC10 sortedC10 schedC10).payments.Sorted
        (fun a b => a.date ≤ b.date) :=
  C10_attached_payments_sorted rawC10 sortedC10 debtC10 planC10 2 schedC10
    (List.Perm.swap paymentW2 paymentW1 []) (by decide)
    (by
      have hf : paymentFrequencyAsDuration planC10.installmentFrequency = some 7 := by decide
      unfold generatePaymentSchedule
      rw [hf]
      norm_num [genScheduleAux, planC10, schedC10])

end TrueAccord
